import Mathlib

/-!
# Verification of the OCR document-processing service coordinator

Shallow embedding of the extraction coordinator of the OCR service
(`src/main.py`): the Gemini primary engine wrapper
(`extract_text_with_gemini`), the PaddleOCR result parser
(`extract_text_from_ocr_result`), the numeric sanitizer
(`convert_to_json_serializable`), and the two OCR HTTP handlers
(`ocr_document`, `upload_documents`).  External effects (engine calls,
database inserts, temp files) are modelled by explicit environments and an
event trace.
-/

namespace OcrService

instance {ε α : Type} [DecidableEq ε] [DecidableEq α] : DecidableEq (Except ε α) :=
  fun a b =>
    match a, b with
    | .error e, .error f =>
        match decEq e f with
        | .isTrue h => .isTrue (h ▸ rfl)
        | .isFalse h => .isFalse (fun c => by cases c; exact h rfl)
    | .ok x, .ok y =>
        match decEq x y with
        | .isTrue h => .isTrue (h ▸ rfl)
        | .isFalse h => .isFalse (fun c => by cases c; exact h rfl)
    | .error _, .ok _ => .isFalse (fun c => by cases c)
    | .ok _, .error _ => .isFalse (fun c => by cases c)

/-! ## Python string primitives -/

/-- The whitespace characters stripped by Python `str.strip()` (ASCII part). -/
def isPySpace (c : Char) : Bool :=
  c = ' ' || c = '\t' || c = '\n' || c = '\r' || c = '\x0b' || c = '\x0c'

/-- Python `str.strip()` on the character list: drop leading then trailing
whitespace. -/
def pyStripList (l : List Char) : List Char :=
  List.rdropWhile isPySpace (l.dropWhile isPySpace)

/-- Python `str.strip()`: drop leading and trailing whitespace. -/
def pyStrip (s : String) : String :=
  ⟨pyStripList s.data⟩

/-- Python `str.lower()` (ASCII case fold, characterwise). -/
def pyLower (s : String) : String :=
  ⟨s.data.map Char.toLower⟩

/-- `os.path.splitext(name)[1]` for POSIX paths: the extension starting at the
last dot of the basename, empty when the basename has no dot or only leading
dots before it. -/
def splitextExt (name : String) : String :=
  let revBase := name.toList.reverse.takeWhile (fun c => c ≠ '/')
  let pre := revBase.takeWhile (fun c => c ≠ '.')
  let post := revBase.dropWhile (fun c => c ≠ '.')
  match post with
  | [] => ""
  | _ :: rest =>
      if rest.any (fun c => c ≠ '.') then ⟨'.' :: pre.reverse⟩ else ""

/-! ## The value model for `convert_to_json_serializable`

`Value` models the Python values that flow through the sanitizer: plain JSON
scalars, lists and dicts, plus the numpy-wrapped scalar types, numeric
ndarrays and 0-or-more-dimensional array-likes (objects with `__array__`).
`NumVal` models the contents of a numeric-dtype ndarray; `.tolist()` on such
an array produces plain Python scalars and nested lists. -/

mutual
inductive NumVal where
  | nint : Int → NumVal
  | nfloat : ℚ → NumVal
  | nbool : Bool → NumVal
  | narr : NumList → NumVal
  deriving DecidableEq
inductive NumList where
  | nil : NumList
  | cons : NumVal → NumList → NumList
  deriving DecidableEq
end

mutual
inductive Value where
  | vint : Int → Value
  | vfloat : ℚ → Value
  | vbool : Bool → Value
  | vstr : String → Value
  | vnone : Value
  | vlist : ValueList → Value
  | vdict : EntryList → Value
  | npInt : Int → Value
  | npFloat : ℚ → Value
  | npBool : Bool → Value
  | npArray : NumList → Value
  | npArrayLike : NumVal → Value
  deriving DecidableEq
inductive ValueList where
  | nil : ValueList
  | cons : Value → ValueList → ValueList
  deriving DecidableEq
inductive EntryList where
  | nil : EntryList
  | cons : String → Value → EntryList → EntryList
  deriving DecidableEq
end

/- `ndarray.tolist()` on a numeric-dtype array element: numpy scalars become
plain Python scalars, nested arrays become plain lists. -/
mutual
def NumVal.tolist : NumVal → Value
  | .nint n => .vint n
  | .nfloat q => .vfloat q
  | .nbool b => .vbool b
  | .narr l => .vlist (NumList.tolist l)
def NumList.tolist : NumList → ValueList
  | .nil => .nil
  | .cons v t => .cons (NumVal.tolist v) (NumList.tolist t)
end

/- `convert_to_json_serializable` (src/main.py lines 133-171), branch by
branch: ndarrays via `tolist`, numpy scalar types to plain scalars, dicts and
lists/tuples recursively, `__array__` objects via `np.asarray` (0-dim via
`.item()`, otherwise as an ndarray), everything else unchanged. -/
mutual
def convert_to_json_serializable : Value → Value
  | .npArray l => .vlist (NumList.tolist l)
  | .npInt n => .vint n
  | .npFloat q => .vfloat q
  | .npBool b => .vbool b
  | .vdict es => .vdict (convertEntries es)
  | .vlist vs => .vlist (convertList vs)
  | .npArrayLike a =>
      match a with
      | .narr l => .vlist (NumList.tolist l)
      | .nint n => .vint n
      | .nfloat q => .vfloat q
      | .nbool b => .vbool b
  | .vint n => .vint n
  | .vfloat q => .vfloat q
  | .vbool b => .vbool b
  | .vstr s => .vstr s
  | .vnone => .vnone
def convertList : ValueList → ValueList
  | .nil => .nil
  | .cons v t => .cons (convert_to_json_serializable v) (convertList t)
def convertEntries : EntryList → EntryList
  | .nil => .nil
  | .cons k v t => .cons k (convert_to_json_serializable v) (convertEntries t)
end

/- A value is plain when it contains no numpy-wrapped node. -/
mutual
def Value.isPlain : Value → Bool
  | .vint _ => true
  | .vfloat _ => true
  | .vbool _ => true
  | .vstr _ => true
  | .vnone => true
  | .vlist vs => ValueList.isPlain vs
  | .vdict es => EntryList.isPlain es
  | .npInt _ => false
  | .npFloat _ => false
  | .npBool _ => false
  | .npArray _ => false
  | .npArrayLike _ => false
def ValueList.isPlain : ValueList → Bool
  | .nil => true
  | .cons v t => Value.isPlain v && ValueList.isPlain t
def EntryList.isPlain : EntryList → Bool
  | .nil => true
  | .cons _ v t => Value.isPlain v && EntryList.isPlain t
end

mutual
def tolist_isPlain (a : NumVal) : (NumVal.tolist a).isPlain = true := by
  cases a with
  | nint n => rfl
  | nfloat q => rfl
  | nbool b => rfl
  | narr l => simpa [NumVal.tolist, Value.isPlain] using tolistList_isPlain l
def tolistList_isPlain (l : NumList) :
    (NumList.tolist l).isPlain = true := by
  cases l with
  | nil => rfl
  | cons v t =>
    simp [NumList.tolist, ValueList.isPlain, tolist_isPlain v,
      tolistList_isPlain t]
end

mutual
def convert_isPlain (v : Value) : (convert_to_json_serializable v).isPlain = true := by
  cases v with
  | vint n => rfl
  | vfloat q => rfl
  | vbool b => rfl
  | vstr s => rfl
  | vnone => rfl
  | vlist vs => simpa [convert_to_json_serializable, Value.isPlain] using convertList_isPlain vs
  | vdict es => simpa [convert_to_json_serializable, Value.isPlain] using convertEntries_isPlain es
  | npInt n => rfl
  | npFloat q => rfl
  | npBool b => rfl
  | npArray l => simpa [convert_to_json_serializable, Value.isPlain] using tolistList_isPlain l
  | npArrayLike a =>
    cases a with
    | nint n => rfl
    | nfloat q => rfl
    | nbool b => rfl
    | narr l => simpa [convert_to_json_serializable, Value.isPlain] using tolistList_isPlain l
def convertList_isPlain (vs : ValueList) :
    (convertList vs).isPlain = true := by
  cases vs with
  | nil => rfl
  | cons v t =>
    simp [convertList, ValueList.isPlain, convert_isPlain v,
      convertList_isPlain t]
def convertEntries_isPlain (es : EntryList) :
    (convertEntries es).isPlain = true := by
  cases es with
  | nil => rfl
  | cons k v t =>
    simp [convertEntries, EntryList.isPlain, convert_isPlain v,
      convertEntries_isPlain t]
end

mutual
def convert_of_isPlain (v : Value) (h : v.isPlain = true) :
    convert_to_json_serializable v = v := by
  cases v with
  | vint n => rfl
  | vfloat q => rfl
  | vbool b => rfl
  | vstr s => rfl
  | vnone => rfl
  | vlist vs =>
    simp only [Value.isPlain] at h
    simp [convert_to_json_serializable, convertList_of_isPlain vs h]
  | vdict es =>
    simp only [Value.isPlain] at h
    simp [convert_to_json_serializable, convertEntries_of_isPlain es h]
  | npInt n => simp [Value.isPlain] at h
  | npFloat q => simp [Value.isPlain] at h
  | npBool b => simp [Value.isPlain] at h
  | npArray l => simp [Value.isPlain] at h
  | npArrayLike a => simp [Value.isPlain] at h
def convertList_of_isPlain (vs : ValueList) (h : vs.isPlain = true) :
    convertList vs = vs := by
  cases vs with
  | nil => rfl
  | cons v t =>
    simp only [ValueList.isPlain, Bool.and_eq_true] at h
    simp [convertList, convert_of_isPlain v h.1, convertList_of_isPlain t h.2]
def convertEntries_of_isPlain (es : EntryList) (h : es.isPlain = true) :
    convertEntries es = es := by
  cases es with
  | nil => rfl
  | cons k v t =>
    simp only [EntryList.isPlain, Bool.and_eq_true] at h
    simp [convertEntries, convert_of_isPlain v h.1,
      convertEntries_of_isPlain t h.2]
end

/-! ## Primary engine: `extract_text_with_gemini` (src/main.py lines 87-131)

The external Gemini call is modelled by its observable behaviour: either the
API raises (`.error`) or it yields `response.text` (an optional string).  The
wrapper raises when the model is not configured, propagates API exceptions
(re-wrapped, still an exception), and otherwise strips the text, splits it on
line breaks and keeps the non-blank lines with their 1-based position in the
split and a fixed confidence. -/

/-- A text line produced by the Gemini path (src/main.py lines 119-123). -/
structure GLine where
  text : String
  confidence : ℚ
  line_number : Nat
  deriving DecidableEq

/-- The successful return of `extract_text_with_gemini`. -/
structure GemOut where
  text : String
  confidence : ℚ
  lines : List GLine
  deriving DecidableEq

/-- The fixed confidence used for Gemini results (src/main.py line 111). -/
def geminiConfidence : ℚ := 95 / 100

/-- Python `str.split`-style split of a character list on the newline
character: every occurrence separates, adjacent separators give empty
fields. -/
def splitNlChars : List Char → List (List Char)
  | [] => [[]]
  | c :: rest =>
      match splitNlChars rest with
      | [] => [[]]
      | h :: t => if c = '\n' then [] :: h :: t else (c :: h) :: t

/-- Python `s.split('\n')`. -/
def pySplitLines (s : String) : List String :=
  (splitNlChars s.data).map String.mk

/-- The loop of src/main.py lines 117-123: enumerate the split lines from
index `i`, keep those that are non-blank after stripping. -/
def geminiLinesAux (c : ℚ) : Nat → List String → List GLine
  | _, [] => []
  | i, l :: ls =>
      if pyStrip l ≠ "" then
        { text := pyStrip l, confidence := c, line_number := i + 1 }
          :: geminiLinesAux c (i + 1) ls
      else geminiLinesAux c (i + 1) ls

/-- `extract_text_with_gemini` (src/main.py lines 87-131). -/
def extract_text_with_gemini (modelConfigured : Bool)
    (resp : Except Unit (Option String)) : Except Unit GemOut :=
  if !modelConfigured then .error ()
  else
    match resp with
    | .error e => .error e
    | .ok t =>
        let extracted : String :=
          match t with
          | none => ""
          | some s => if s = "" then "" else pyStrip s
        let lines : List GLine :=
          if extracted ≠ "" then
            geminiLinesAux geminiConfidence 0 (pySplitLines extracted)
          else []
        .ok { text := extracted, confidence := geminiConfidence, lines := lines }

/-! ## Secondary engine parser: `extract_text_from_ocr_result`
(src/main.py lines 173-220) -/

/-- One element of the PaddleOCR `predict()` result list: either a dict with
the `rec_texts`, `rec_scores` and `dt_polys` keys (missing keys default to
`[]` via `.get`), or a non-dict entry, which the parser skips. -/
inductive PaddleItem where
  | dict : List String → List (Option ℚ) → List Value → PaddleItem
  | nondict : PaddleItem
  deriving DecidableEq

/-- A text line produced by the PaddleOCR path (src/main.py lines 211-215). -/
structure PLine where
  text : String
  confidence : Option ℚ
  polygon : Option Value
  deriving DecidableEq

/-- The inner loop of src/main.py lines 192-218 over `rec_texts`, carrying the
running index `i`: for each non-empty text, append `text + "\n"` to the
accumulated text, look up the polygon (converted) and the confidence when
their lists are long enough, collect present confidences, and emit the line
(converted once more at line 217). -/
def processTexts (rec_scores : List (Option ℚ)) (dt_polys : List Value) :
    Nat → List String → String × List ℚ × List PLine
  | _, [] => ("", [], [])
  | i, t :: ts =>
      let rest := processTexts rec_scores dt_polys (i + 1) ts
      if t ≠ "" then
        let polygon : Option Value := dt_polys[i]?.map convert_to_json_serializable
        let confidence : Option ℚ := rec_scores.getD i none
        let line : PLine :=
          { text := t, confidence := confidence,
            polygon := polygon.map convert_to_json_serializable }
        (t ++ "\n" ++ rest.1,
         (match confidence with | some c => [c] | none => []) ++ rest.2.1,
         line :: rest.2.2)
      else rest

/-- `extract_text_from_ocr_result` (src/main.py lines 173-220): returns the
accumulated text, the collected confidences and the text lines. -/
def extract_text_from_ocr_result : List PaddleItem → String × List ℚ × List PLine
  | [] => ("", [], [])
  | item :: rest =>
      let r := extract_text_from_ocr_result rest
      match item with
      | .nondict => r
      | .dict ts ss ps =>
          let e := processTexts ss ps 0 ts
          (e.1 ++ r.1, e.2.1 ++ r.2.1, e.2.2 ++ r.2.2)

/-! ## The extraction coordinator (src/main.py lines 305-350)

The body of the `try` block shared by both OCR handlers: attempt Gemini when
configured, swallow its exceptions, fall back to PaddleOCR when the text is
still empty or the method tag is not "gemini", and raise when the final text
is empty.  The engines are modelled by their observable behaviour
(`geminiResp` for the Gemini API, `paddleResult` for `predict()`), and the
calls made are recorded. -/

/-- A text line of either engine, as held by the `text_lines` variable. -/
inductive TLine where
  | gem : GLine → TLine
  | pad : PLine → TLine
  deriving DecidableEq

/-- Which engine a coordinator run invoked, in order. -/
inductive EngineCall where
  | gemini : EngineCall
  | paddle : EngineCall
  deriving DecidableEq

/-- The message of the exception raised at src/main.py line 350. -/
def bothFailedMsg : String := "Both Gemini and PaddleOCR failed to extract text"

/-- The mutable locals of the coordinator (src/main.py lines 307-310). -/
structure CoordState where
  extracted_text : String
  all_confidences : List ℚ
  avg_confidence : Option ℚ
  text_lines : List TLine
  ocr_method : Option String
  calls : List EngineCall
  deriving DecidableEq

/-- The successful outcome of the coordinator. -/
structure CoordOut where
  extracted_text : String
  avg_confidence : Option ℚ
  text_lines : List TLine
  ocr_method : String
  deriving DecidableEq

/-- The extraction coordinator (src/main.py lines 305-350). -/
def ocrCoordinator (geminiConfigured : Bool)
    (geminiResp : Except Unit (Option String))
    (paddleResult : List PaddleItem) :
    Except String CoordOut × List EngineCall :=
  let s0 : CoordState :=
    { extracted_text := "", all_confidences := [], avg_confidence := none,
      text_lines := [], ocr_method := none, calls := [] }
  let s1 : CoordState :=
    if geminiConfigured then
      match extract_text_with_gemini geminiConfigured geminiResp with
      | .ok g =>
          { extracted_text := g.text,
            all_confidences :=
              if g.lines ≠ [] then List.replicate g.lines.length g.confidence
              else [g.confidence],
            avg_confidence := some g.confidence,
            text_lines := g.lines.map TLine.gem,
            ocr_method := some "gemini",
            calls := [.gemini] }
      | .error _ => { s0 with calls := [.gemini] }
    else s0
  let s2 : CoordState :=
    if s1.extracted_text = "" ∨ s1.ocr_method ≠ some "gemini" then
      let e := extract_text_from_ocr_result paddleResult
      { extracted_text := e.1,
        all_confidences := e.2.1,
        avg_confidence :=
          if e.2.1 ≠ [] then some (e.2.1.sum / (e.2.1.length : ℚ)) else none,
        text_lines := e.2.2.map TLine.pad,
        ocr_method := some "paddleocr",
        calls := s1.calls ++ [.paddle] }
    else s1
  if s2.extracted_text = "" then (.error bothFailedMsg, s2.calls)
  else
    (.ok { extracted_text := s2.extracted_text,
           avg_confidence := s2.avg_confidence,
           text_lines := s2.text_lines,
           ocr_method := s2.ocr_method.getD "" }, s2.calls)

/-! ## Specification-side characterizations (for the fallback-policy claims) -/

/-- Modelled from the spec: the primary stage counts as failed when the engine
is not configured, the call raises, or the text is empty. -/
def specPrimaryFails (geminiConfigured : Bool)
    (geminiResp : Except Unit (Option String)) : Bool :=
  !geminiConfigured ||
    (match extract_text_with_gemini geminiConfigured geminiResp with
     | .error _ => true
     | .ok g => g.text = "")

/-- Modelled from the spec: the outcome when the primary stage succeeds. -/
def specPrimaryOutcome (geminiConfigured : Bool)
    (geminiResp : Except Unit (Option String)) : CoordOut :=
  match extract_text_with_gemini geminiConfigured geminiResp with
  | .ok g =>
      { extracted_text := g.text, avg_confidence := some g.confidence,
        text_lines := g.lines.map TLine.gem, ocr_method := "gemini" }
  | .error _ =>
      { extracted_text := "", avg_confidence := none, text_lines := [],
        ocr_method := "" }

/-- Modelled from the spec: the outcome when the secondary stage runs — its
parsed result, or the both-engines-failed error when it yields no text. -/
def specSecondaryOutcome (paddleResult : List PaddleItem) :
    Except String CoordOut :=
  let e := extract_text_from_ocr_result paddleResult
  if e.1 = "" then .error bothFailedMsg
  else
    .ok { extracted_text := e.1,
          avg_confidence :=
            if e.2.1 ≠ [] then some (e.2.1.sum / (e.2.1.length : ℚ)) else none,
          text_lines := e.2.2.map TLine.pad, ocr_method := "paddleocr" }

/-! ## HTTP handler models (src/main.py lines 271-414 and 416-587)

The handlers are modelled as pure functions of the request environment: the
per-request data (`FileReq`) carries the filename and the observable
behaviour of the external collaborators (the Gemini API, the PaddleOCR
`predict()` call, and the database insert); the process-wide configuration
(`GlobalEnv`) carries whether Gemini and Supabase are configured.  Side
effects are recorded in an event trace (indexed by the file position for the
batch endpoint), and every row handed to the store is collected. -/

/-- Observable side effects of a handler, tagged with the file index. -/
inductive Event where
  | readFile : Nat → Event
  | createTemp : Nat → Event
  | callGemini : Nat → Event
  | callPaddle : Nat → Event
  | dbInsert : Nat → Event
  | deleteTemp : Nat → Event
  deriving DecidableEq

/-- Process-wide configuration. -/
structure GlobalEnv where
  geminiConfigured : Bool
  supabaseConfigured : Bool
  deriving DecidableEq

/-- One uploaded file together with the behaviour of the external calls made
on its behalf: the Gemini response, the PaddleOCR result, and the database
insert outcome (`.error` a raised exception, `.ok b` a result with data iff
`b`). -/
structure FileReq where
  filename : String
  geminiResp : Except Unit (Option String)
  paddleResult : List PaddleItem
  dbOutcome : Except Unit Bool
  deriving DecidableEq

/-- The errors surfaced by the single-document handler. -/
inductive OcrError where
  | unsupportedType : String → OcrError
  | processingError : String → OcrError
  | dbError : String → OcrError
  deriving DecidableEq

/-- The OCR allow-list (src/main.py lines 285 and 428). -/
def allowedExtensions : List String :=
  [".png", ".jpg", ".jpeg", ".pdf", ".bmp", ".tiff"]

/-- The detail of the 400 response (src/main.py lines 289-292); the list of
allowed types in the real message is omitted because Python renders the set
in an unspecified iteration order. -/
def unsupportedMsg (ext : String) : String :=
  "File type " ++ ext ++ " not supported"

/-- The second serialization pass applied to each text line before it is
returned (src/main.py line 388): converting the line dict again touches only
the polygon value. -/
def convertTLine : TLine → TLine
  | .gem g => .gem g
  | .pad p => .pad { p with polygon := p.polygon.map convert_to_json_serializable }

/-- The fields of the `OCRResult` response model that the handlers compute
(document id and timestamp are opaque). -/
structure OCRResultM where
  filename : String
  extracted_text : String
  confidence : Option ℚ
  text_lines : Option (List TLine)
  deriving DecidableEq

/-- The fields of the row handed to the store that the claims speak about
(src/main.py lines 353-362 and 512-521). -/
structure DbRow where
  filename : String
  extracted_text : String
  confidence : Option ℚ
  ocr_method : String
  deriving DecidableEq

/-- The response body built at src/main.py lines 390-401 and 545-552. -/
def mkResult (fname : String) (out : CoordOut) : OCRResultM :=
  { filename := fname,
    extracted_text := pyStrip out.extracted_text,
    confidence := out.avg_confidence,
    text_lines :=
      if out.text_lines ≠ [] then some (out.text_lines.map convertTLine)
      else none }

/-- The row handed to the store (src/main.py lines 353-362 and 512-521). -/
def mkDbRow (fname : String) (out : CoordOut) : DbRow :=
  { filename := fname,
    extracted_text := pyStrip out.extracted_text,
    confidence := out.avg_confidence,
    ocr_method := out.ocr_method }

/-- The outcome of the single-document handler. -/
structure SingleOut where
  result : Except OcrError OCRResultM
  events : List Event
  dbRows : List DbRow
  deriving DecidableEq

/-- The engine calls of a coordinator run, as trace events for file `i`. -/
def callEventsOf (i : Nat) (calls : List EngineCall) : List Event :=
  calls.map fun c =>
    match c with
    | .gemini => Event.callGemini i
    | .paddle => Event.callPaddle i

/-- The `/ocr` handler `ocr_document` (src/main.py lines 271-414): extension
gate, read + temp file, coordinator, optional database insert, response; the
`finally` block at lines 403-408 deletes the temp file on every path that
created it. -/
def ocr_document (g : GlobalEnv) (f : FileReq) : SingleOut :=
  let ext := pyLower (splitextExt f.filename)
  if ext ∉ allowedExtensions then
    { result := .error (.unsupportedType (unsupportedMsg ext)),
      events := [], dbRows := [] }
  else
    let run := ocrCoordinator g.geminiConfigured f.geminiResp f.paddleResult
    let pre := [Event.readFile 0, Event.createTemp 0]
    match run.1 with
    | .error msg =>
        { result := .error (.processingError ("Error processing document: " ++ msg)),
          events := pre ++ callEventsOf 0 run.2 ++ [Event.deleteTemp 0],
          dbRows := [] }
    | .ok out =>
        if g.supabaseConfigured then
          match f.dbOutcome with
          | .error _ =>
              { result := .error (.dbError "Database error"),
                events := pre ++ callEventsOf 0 run.2
                  ++ [Event.dbInsert 0, Event.deleteTemp 0],
                dbRows := [mkDbRow f.filename out] }
          | .ok false =>
              { result := .error (.dbError "Failed to save document to database"),
                events := pre ++ callEventsOf 0 run.2
                  ++ [Event.dbInsert 0, Event.deleteTemp 0],
                dbRows := [mkDbRow f.filename out] }
          | .ok true =>
              { result := .ok (mkResult f.filename out),
                events := pre ++ callEventsOf 0 run.2
                  ++ [Event.dbInsert 0, Event.deleteTemp 0],
                dbRows := [mkDbRow f.filename out] }
        else
          { result := .ok (mkResult f.filename out),
            events := pre ++ callEventsOf 0 run.2 ++ [Event.deleteTemp 0],
            dbRows := [] }

/-- A per-file error entry of the batch handler (src/main.py lines 448-451,
534-537, 559-562). -/
structure ErrorEntry where
  filename : String
  error : String
  deriving DecidableEq

/-- One iteration of the batch loop (src/main.py lines 438-570) for the file
at position `i`: it yields either one response document or one error entry,
plus its trace events and submitted rows; the per-file `finally` block
deletes the temp file whenever one was created. -/
def processFile (g : GlobalEnv) (i : Nat) (f : FileReq) :
    Option OCRResultM × List ErrorEntry × List Event × List DbRow :=
  let ext := pyLower (splitextExt f.filename)
  if ext ∉ allowedExtensions then
    (none, [{ filename := f.filename, error := unsupportedMsg ext }], [], [])
  else
    let run := ocrCoordinator g.geminiConfigured f.geminiResp f.paddleResult
    let pre := [Event.readFile i, Event.createTemp i]
    match run.1 with
    | .error msg =>
        (none, [{ filename := f.filename,
                  error := "Error processing file: " ++ msg }],
         pre ++ callEventsOf i run.2 ++ [Event.deleteTemp i], [])
    | .ok out =>
        if g.supabaseConfigured then
          match f.dbOutcome with
          | .error _ =>
              (none, [{ filename := f.filename, error := "Database error" }],
               pre ++ callEventsOf i run.2 ++ [Event.dbInsert i, Event.deleteTemp i],
               [mkDbRow f.filename out])
          | .ok false =>
              (none, [{ filename := f.filename,
                        error := "Database error: No data returned from insert" }],
               pre ++ callEventsOf i run.2 ++ [Event.dbInsert i, Event.deleteTemp i],
               [mkDbRow f.filename out])
          | .ok true =>
              (some (mkResult f.filename out), [],
               pre ++ callEventsOf i run.2 ++ [Event.dbInsert i, Event.deleteTemp i],
               [mkDbRow f.filename out])
        else
          (some (mkResult f.filename out), [],
           pre ++ callEventsOf i run.2 ++ [Event.deleteTemp i], [])

/-- The batch loop over the remaining files, starting at position `i`
(`enumerate(files, 1)` starts at 1). -/
def batchAux (g : GlobalEnv) :
    Nat → List FileReq →
    List OCRResultM × List ErrorEntry × List Event × List DbRow
  | _, [] => ([], [], [], [])
  | i, f :: fs =>
      let r := processFile g i f
      let rest := batchAux g (i + 1) fs
      (r.1.toList ++ rest.1, r.2.1 ++ rest.2.1,
       r.2.2.1 ++ rest.2.2.1, r.2.2.2 ++ rest.2.2.2)

/-- The response of the batch handler (src/main.py lines 579-587). -/
structure UploadOut where
  success : Bool
  total_files : Nat
  successful : Nat
  failed : Nat
  documents : List OCRResultM
  errors : List ErrorEntry
  events : List Event
  dbRows : List DbRow
  deriving DecidableEq

/-- The `/upload` batch handler `upload_documents`
(src/main.py lines 416-587). -/
def upload_documents (g : GlobalEnv) (files : List FileReq) : UploadOut :=
  let r := batchAux g 1 files
  { success := decide (0 < r.1.length),
    total_files := files.length,
    successful := r.1.length,
    failed := r.2.1.length,
    documents := r.1,
    errors := r.2.1,
    events := r.2.2.1,
    dbRows := r.2.2.2 }

/-- A `PaddleItem` that the parser treats as a dict. -/
def PaddleItem.isDict : PaddleItem → Bool
  | .dict _ _ _ => true
  | .nondict => false

/-- All recognized texts of a PaddleOCR result, in detection order. -/
def allTexts : List PaddleItem → List String
  | [] => []
  | .dict ts _ _ :: rest => ts ++ allTexts rest
  | .nondict :: rest => allTexts rest

/-! ## Characterization lemmas -/

theorem dropWhile_eq_self_of_prefix {α : Type} {p : α → Bool} {u v : List α}
    (hu : List.dropWhile p u = u) (hpre : v <+: u) :
    List.dropWhile p v = v := by
  obtain ⟨t, rfl⟩ := hpre
  cases v with
  | nil => rfl
  | cons x v' =>
    rw [List.cons_append, List.dropWhile_cons] at hu
    by_cases hx : p x = true
    · rw [if_pos hx] at hu
      have hlen := congrArg List.length hu
      have hle : (List.dropWhile p (v' ++ t)).length ≤ (v' ++ t).length :=
        (List.IsSuffix.sublist (List.dropWhile_suffix p)).length_le
      simp only [List.length_cons] at hlen
      omega
    · rw [List.dropWhile_cons, if_neg hx]

theorem pyStripList_idem (l : List Char) :
    pyStripList (pyStripList l) = pyStripList l := by
  unfold pyStripList
  have h1 : List.dropWhile isPySpace (List.dropWhile isPySpace l)
      = List.dropWhile isPySpace l := List.dropWhile_idempotent _ _
  have h2 : List.dropWhile isPySpace
        (List.rdropWhile isPySpace (List.dropWhile isPySpace l))
      = List.rdropWhile isPySpace (List.dropWhile isPySpace l) :=
    dropWhile_eq_self_of_prefix h1 ( List.rdropWhile_prefix _ _)
  rw [h2, List.rdropWhile_idempotent]

theorem pyStrip_idem (s : String) : pyStrip (pyStrip s) = pyStrip s :=
  congrArg String.mk (pyStripList_idem s.data)

theorem convert_idem (v : Value) : convert_to_json_serializable (convert_to_json_serializable v) = convert_to_json_serializable v :=
  convert_of_isPlain (convert_to_json_serializable v) (convert_isPlain v)


theorem geminiLinesAux_eq (c : ℚ) (ls : List String) : ∀ i : Nat,
    geminiLinesAux c i ls = (List.enumFrom i ls).filterMap (fun p =>
      if pyStrip p.2 = "" then none
      else some { text := pyStrip p.2, confidence := c, line_number := p.1 + 1 }) := by
  induction ls with
  | nil => intro i; rfl
  | cons l t ih =>
    intro i
    rw [List.enumFrom_cons, List.filterMap_cons]
    simp only [geminiLinesAux]
    by_cases h : pyStrip l = ""
    · simp [h, ih]
    · simp [h, ih]

theorem geminiLinesAux_texts (c : ℚ) (ls : List String) : ∀ i : Nat,
    (geminiLinesAux c i ls).map GLine.text
      = (ls.map pyStrip).filter (fun s => s ≠ "") := by
  induction ls with
  | nil => intro i; rfl
  | cons l t ih =>
    intro i
    simp only [geminiLinesAux, List.map_cons, List.filter_cons]
    by_cases h : pyStrip l = ""
    · simp [h, ih]
    · simp [h, ih]

theorem geminiLinesAux_conf (c : ℚ) (ls : List String) : ∀ i : Nat,
    ∀ gl ∈ geminiLinesAux c i ls, gl.confidence = c := by
  induction ls with
  | nil => intro i gl hgl; cases hgl
  | cons l t ih =>
    intro i gl hgl
    simp only [geminiLinesAux] at hgl
    split at hgl
    · rcases List.mem_cons.mp hgl with h1 | h1
      · rw [h1]
      · exact ih (i + 1) gl h1
    · exact ih (i + 1) gl hgl

theorem processTexts_lines (ss : List (Option ℚ)) (ps : List Value)
    (ts : List String) : ∀ i : Nat,
    (processTexts ss ps i ts).2.2 = (List.enumFrom i ts).filterMap (fun p =>
      if p.2 = "" then none
      else some { text := p.2, confidence := ss.getD p.1 none,
                  polygon := (ps[p.1]?.map convert_to_json_serializable).map
                    convert_to_json_serializable }) := by
  induction ts with
  | nil => intro i; rfl
  | cons t ts ih =>
    intro i
    rw [List.enumFrom_cons, List.filterMap_cons]
    simp only [processTexts]
    by_cases h : t = ""
    · simp [h, ih]
    · simp [h, ih]

theorem processTexts_texts_map (ss : List (Option ℚ)) (ps : List Value)
    (ts : List String) : ∀ i : Nat,
    (processTexts ss ps i ts).2.2.map PLine.text
      = ts.filter (fun t => t ≠ "") := by
  induction ts with
  | nil => intro i; rfl
  | cons t ts ih =>
    intro i
    simp only [processTexts, List.filter_cons]
    by_cases h : t = ""
    · simp [h, ih]
    · simp [h, ih]

theorem processTexts_text (ss : List (Option ℚ)) (ps : List Value)
    (ts : List String) : ∀ i : Nat,
    (processTexts ss ps i ts).1
      = ((ts.filter (fun t => t ≠ "")).map (fun t => t ++ "\n")).foldr
          (· ++ ·) "" := by
  induction ts with
  | nil => intro i; rfl
  | cons t ts ih =>
    intro i
    simp only [processTexts, List.filter_cons]
    by_cases h : t = ""
    · simp [h, ih]
    · simp [h, ih, String.append_assoc]

theorem processTexts_confs (ss : List (Option ℚ)) (ps : List Value)
    (ts : List String) : ∀ i : Nat,
    (processTexts ss ps i ts).2.1
      = ((processTexts ss ps i ts).2.2).filterMap PLine.confidence := by
  induction ts with
  | nil => intro i; rfl
  | cons t ts ih =>
    intro i
    simp only [processTexts]
    by_cases h : t = ""
    · simp [h, ih]
    · cases hc : ss.getD i none with
      | none => simp [h, hc, List.filterMap_cons, ih]
      | some c => simp [h, hc, List.filterMap_cons, ih]

theorem extract_eq_filter_dict (items : List PaddleItem) :
    extract_text_from_ocr_result items
      = extract_text_from_ocr_result (items.filter PaddleItem.isDict) := by
  induction items with
  | nil => rfl
  | cons item rest ih =>
    cases item with
    | dict ts ss ps =>
        simp only [List.filter_cons, PaddleItem.isDict, if_pos]
        simp only [extract_text_from_ocr_result, ih]
    | nondict =>
        simp only [List.filter_cons, PaddleItem.isDict]
        simp only [extract_text_from_ocr_result, ih]
        simp [ih]

theorem extract_lines_map_text (items : List PaddleItem) :
    ((extract_text_from_ocr_result items).2.2).map PLine.text
      = (allTexts items).filter (fun t => t ≠ "") := by
  induction items with
  | nil => rfl
  | cons item rest ih =>
    cases item with
    | dict ts ss ps =>
        simp only [extract_text_from_ocr_result, allTexts, List.map_append,
          List.filter_append, ih, processTexts_texts_map]
    | nondict =>
        simp only [extract_text_from_ocr_result, allTexts, ih]

theorem foldr_strApp (l : List String) (s : String) :
    l.foldr (· ++ ·) s = l.foldr (· ++ ·) "" ++ s := by
  induction l with
  | nil => simp [List.foldr]
  | cons a t ih => simp only [List.foldr, ih, String.append_assoc]

theorem extract_text_foldr (items : List PaddleItem) :
    (extract_text_from_ocr_result items).1
      = (((allTexts items).filter (fun t => t ≠ "")).map
          (fun t => t ++ "\n")).foldr (· ++ ·) "" := by
  induction items with
  | nil => rfl
  | cons item rest ih =>
    cases item with
    | dict ts ss ps =>
        simp only [extract_text_from_ocr_result, allTexts, ih, processTexts_text]
        rw [List.filter_append, List.map_append, List.foldr_append]
        exact (foldr_strApp _ _).symm
    | nondict =>
        simp only [extract_text_from_ocr_result, allTexts, ih]

theorem extract_confs_filterMap (items : List PaddleItem) :
    (extract_text_from_ocr_result items).2.1
      = ((extract_text_from_ocr_result items).2.2).filterMap
          PLine.confidence := by
  induction items with
  | nil => rfl
  | cons item rest ih =>
    cases item with
    | dict ts ss ps =>
        simp only [extract_text_from_ocr_result, List.filterMap_append, ih,
          processTexts_confs]
    | nondict =>
        simp only [extract_text_from_ocr_result, ih]

theorem extract_text_empty_iff (items : List PaddleItem) :
    ((extract_text_from_ocr_result items).1 = "")
      ↔ (allTexts items).filter (fun t => t ≠ "") = [] := by
  rw [extract_text_foldr]
  constructor
  · intro h
    cases hf : (allTexts items).filter (fun t => t ≠ "") with
    | nil => rfl
    | cons a t =>
        rw [hf] at h
        simp only [List.map_cons, List.foldr] at h
        have hd := congrArg String.data h
        rw [String.data_append, String.data_append] at hd
        have hnl : ("\n" : String).data = [Char.ofNat 10] := rfl
        rw [hnl] at hd
        simp at hd
  · intro h
    rw [h]
    rfl

theorem specPrimaryFails_false_gc {gc : Bool} {resp : Except Unit (Option String)}
    (h : specPrimaryFails gc resp = false) : gc = true := by
  cases gc with
  | false => simp [specPrimaryFails] at h
  | true => rfl

theorem ocrCoordinator_primary (gc : Bool) (resp : Except Unit (Option String))
    (pr : List PaddleItem) (h : specPrimaryFails gc resp = false) :
    ocrCoordinator gc resp pr
      = (.ok (specPrimaryOutcome gc resp), [EngineCall.gemini]) := by
  have hgc := specPrimaryFails_false_gc h
  subst hgc
  unfold specPrimaryFails at h
  cases hg : extract_text_with_gemini true resp with
  | error e => rw [hg] at h; simp at h
  | ok g =>
      rw [hg] at h
      have hne : g.text ≠ "" := by simpa using h
      unfold ocrCoordinator specPrimaryOutcome
      rw [hg]
      simp [hne]

theorem ocrCoordinator_fallback (gc : Bool) (resp : Except Unit (Option String))
    (pr : List PaddleItem) (h : specPrimaryFails gc resp = true) :
    ocrCoordinator gc resp pr
      = (specSecondaryOutcome pr,
         (if gc then [EngineCall.gemini] else []) ++ [EngineCall.paddle]) := by
  cases gc with
  | false =>
      unfold ocrCoordinator specSecondaryOutcome
      by_cases he : (extract_text_from_ocr_result pr).1 = "" <;> simp [he]
  | true =>
      unfold specPrimaryFails at h
      cases hg : extract_text_with_gemini true resp with
      | error e =>
          unfold ocrCoordinator specSecondaryOutcome
          rw [hg]
          by_cases he : (extract_text_from_ocr_result pr).1 = "" <;> simp [he]
      | ok g =>
          rw [hg] at h
          have hemp : g.text = "" := by simpa using h
          unfold ocrCoordinator specSecondaryOutcome
          rw [hg]
          by_cases he : (extract_text_from_ocr_result pr).1 = "" <;>
            simp [hemp, he]

/-! ## Claim theorems -/

/-- C1: the secondary (PaddleOCR) engine is invoked if and only if the
primary (Gemini) engine was not configured, raised, or returned empty text; a
stage-1 exception is never propagated (the only coordinator error is the
both-engines message, settled in the C4 theorem); when the primary succeeds
with non-empty text the secondary is not invoked and the primary outcome is
returned; when the primary fails the secondary is invoked exactly once and
its parsed result is returned. -/
theorem C1_fallback_policy (gc : Bool) (resp : Except Unit (Option String))
    (pr : List PaddleItem) :
    (ocrCoordinator gc resp pr).2
      = (if gc then [EngineCall.gemini] else [])
        ++ (if specPrimaryFails gc resp then [EngineCall.paddle] else []) ∧
    (ocrCoordinator gc resp pr).2.count EngineCall.paddle
      = (if specPrimaryFails gc resp then 1 else 0) ∧
    (specPrimaryFails gc resp = false →
      (ocrCoordinator gc resp pr).1 = .ok (specPrimaryOutcome gc resp) ∧
      (ocrCoordinator gc resp pr).2 = [EngineCall.gemini]) ∧
    (specPrimaryFails gc resp = true →
      (ocrCoordinator gc resp pr).1 = specSecondaryOutcome pr) := by
  by_cases h : specPrimaryFails gc resp = true
  · rw [ocrCoordinator_fallback gc resp pr h, h]
    refine ⟨rfl, ?_, ?_, ?_⟩
    · cases gc <;> simp [List.count_append, List.count_cons, List.count_nil]
    · intro hfalse; exact Bool.noConfusion hfalse
    · intro _; rfl
  · have hf : specPrimaryFails gc resp = false := by simpa using h
    have hgc := specPrimaryFails_false_gc hf
    rw [ocrCoordinator_primary gc resp pr hf, hf, hgc]
    refine ⟨rfl, ?_, fun _ => ⟨rfl, rfl⟩, fun htrue => ?_⟩
    · simp [List.count_cons, List.count_nil]
    · exact Bool.noConfusion htrue

/-- C1 witness: with Gemini configured but raising, the coordinator returns
the secondary outcome; with Gemini succeeding on non-empty text, the
coordinator returns the primary outcome and only calls Gemini. -/
theorem C1_fallback_policy_witness :
    (ocrCoordinator true (.error ()) [PaddleItem.dict ["z"] [] []]).1
        = specSecondaryOutcome [PaddleItem.dict ["z"] [] []] ∧
    (ocrCoordinator true (.ok (some "hello")) []).1
        = .ok (specPrimaryOutcome true (.ok (some "hello"))) ∧
    (ocrCoordinator true (.ok (some "hello")) []).2 = [EngineCall.gemini] :=
  ⟨(C1_fallback_policy true (.error ()) [PaddleItem.dict ["z"] [] []]).2.2.2 rfl,
   ((C1_fallback_policy true (.ok (some "hello")) []).2.2.1 rfl).1,
   ((C1_fallback_policy true (.ok (some "hello")) []).2.2.1 rfl).2⟩

/-- C2 counterexample: for Gemini text `"a\n\nb"` the two surviving lines are
numbered 1 and 3 — the index of each line in the original split — not the
sequential 1, 2 the claim asserts. -/
theorem C2_counterexample :
    (extract_text_with_gemini true (.ok (some "a\n\nb"))).map
        (fun g => g.lines.map GLine.line_number) = .ok [1, 3] ∧
    (extract_text_with_gemini true (.ok (some "a\n\nb"))).map
        (fun g => g.lines.map GLine.line_number) ≠ .ok [1, 2] := by
  constructor
  · rfl
  · have h1 : (extract_text_with_gemini true (.ok (some "a\n\nb"))).map
        (fun g => g.lines.map GLine.line_number) = .ok [1, 3] := rfl
    rw [h1]
    decide

/-- C2 (amended): when the primary engine succeeds with non-empty text, the
line list consists of exactly the lines of the text that are non-empty after
trimming, in order and trimmed, every line and the overall result carry the
fixed constant confidence, and each surviving line's index is its 1-based
position in the line split of the returned text (blank lines still advance
the index). -/
theorem C2_gemini_line_list (t : String) (g : GemOut)
    (h : extract_text_with_gemini true (.ok (some t)) = .ok g)
    (hne : g.text ≠ "") :
    g.confidence = geminiConfidence ∧
    (∀ gl ∈ g.lines, gl.confidence = geminiConfidence) ∧
    g.lines.map GLine.text
      = ((pySplitLines g.text).map pyStrip).filter (fun s => s ≠ "") ∧
    g.lines = (List.enumFrom 0 (pySplitLines g.text)).filterMap (fun p =>
      if pyStrip p.2 = "" then none
      else some { text := pyStrip p.2, confidence := geminiConfidence,
                  line_number := p.1 + 1 }) := by
  have h' : extract_text_with_gemini true (.ok (some t)) = .ok
      { text := if t = "" then "" else pyStrip t,
        confidence := geminiConfidence,
        lines := if (if t = "" then "" else pyStrip t) ≠ "" then
            geminiLinesAux geminiConfidence 0
              (pySplitLines (if t = "" then "" else pyStrip t))
          else [] } := rfl
  rw [h'] at h
  have hg := (Except.ok.inj h).symm
  subst hg
  by_cases ht : t = ""
  · simp [ht] at hne
  · have hcond : pyStrip t ≠ "" := by
      intro hc; apply hne; simp [ht, hc]
    refine ⟨by simp [ht], ?_, ?_, ?_⟩
    · intro gl hgl
      have hmem : gl ∈ geminiLinesAux geminiConfidence 0
          (pySplitLines (pyStrip t)) := by simpa [ht, hcond] using hgl
      exact geminiLinesAux_conf geminiConfidence _ 0 gl hmem
    · have hx := geminiLinesAux_texts geminiConfidence (pySplitLines (pyStrip t)) 0
      simpa [ht, hcond] using hx
    · have hx := geminiLinesAux_eq geminiConfidence (pySplitLines (pyStrip t)) 0
      simpa [ht, hcond] using hx

/-- C2 witness: the amended indexing law evaluated at text `"a\n\nb"`. -/
theorem C2_gemini_line_list_witness :
    ({ text := pyStrip "a\n\nb", confidence := geminiConfidence,
       lines := geminiLinesAux geminiConfidence 0
         (pySplitLines (pyStrip "a\n\nb")) } : GemOut).lines
      = (List.enumFrom 0 (pySplitLines
          ({ text := pyStrip "a\n\nb", confidence := geminiConfidence,
             lines := geminiLinesAux geminiConfidence 0
               (pySplitLines (pyStrip "a\n\nb")) } : GemOut).text)).filterMap
          (fun p =>
            if pyStrip p.2 = "" then none
            else some { text := pyStrip p.2, confidence := geminiConfidence,
                        line_number := p.1 + 1 }) :=
  (C2_gemini_line_list "a\n\nb" _ rfl (by decide)).2.2.2

/-- C3: for a secondary-engine result, the parser produces one TextLine per
non-empty recognized text in detection order, the full text is the
concatenation of the non-empty texts each followed by a line break, the
collected confidences are exactly the per-line confidences that are present,
and — in the coordinator, when the fallback ran — the overall confidence is
their arithmetic mean, or absent (not zero) when no line has one. -/
theorem C3_secondary_normalization (items : List PaddleItem) :
    ((extract_text_from_ocr_result items).2.2).map PLine.text
      = (allTexts items).filter (fun t => t ≠ "") ∧
    (extract_text_from_ocr_result items).2.2.length
      = ((allTexts items).filter (fun t => t ≠ "")).length ∧
    (extract_text_from_ocr_result items).1
      = (((allTexts items).filter (fun t => t ≠ "")).map
          (fun t => t ++ "\n")).foldr (· ++ ·) "" ∧
    (extract_text_from_ocr_result items).2.1
      = ((extract_text_from_ocr_result items).2.2).filterMap PLine.confidence ∧
    (∀ (gc : Bool) (resp : Except Unit (Option String)) (out : CoordOut),
      specPrimaryFails gc resp = true →
      (ocrCoordinator gc resp items).1 = .ok out →
      out.text_lines = ((extract_text_from_ocr_result items).2.2).map TLine.pad ∧
      out.avg_confidence =
        (if ((extract_text_from_ocr_result items).2.2).filterMap PLine.confidence = []
         then none
         else some
          ((((extract_text_from_ocr_result items).2.2).filterMap PLine.confidence).sum
            / ((((extract_text_from_ocr_result items).2.2).filterMap
                  PLine.confidence).length : ℚ)))) := by
  refine ⟨extract_lines_map_text items, ?_, extract_text_foldr items,
    extract_confs_filterMap items, ?_⟩
  · have hm := congrArg List.length (extract_lines_map_text items)
    simpa using hm
  · intro gc resp out hfail hok
    rw [ocrCoordinator_fallback gc resp items hfail] at hok
    unfold specSecondaryOutcome at hok
    by_cases he : (extract_text_from_ocr_result items).1 = ""
    · rw [if_pos he] at hok; cases hok
    · rw [if_neg he] at hok
      have hout := (Except.ok.inj hok).symm
      subst hout
      refine ⟨rfl, ?_⟩
      rw [← extract_confs_filterMap items]
      by_cases hc : (extract_text_from_ocr_result items).2.1 = []
      · simp [hc]
      · simp [hc]

/-- C3 witness: the coordinator conjunct evaluated with the primary absent
and one detection carrying confidence 1. -/
theorem C3_secondary_normalization_witness :
    ({ extracted_text := (extract_text_from_ocr_result
          [PaddleItem.dict ["z"] [some 1] []]).1,
       avg_confidence :=
         if (extract_text_from_ocr_result
              [PaddleItem.dict ["z"] [some 1] []]).2.1 ≠ [] then
           some ((extract_text_from_ocr_result
              [PaddleItem.dict ["z"] [some 1] []]).2.1.sum
             / ((extract_text_from_ocr_result
                  [PaddleItem.dict ["z"] [some 1] []]).2.1.length : ℚ))
         else none,
       text_lines := (extract_text_from_ocr_result
          [PaddleItem.dict ["z"] [some 1] []]).2.2.map TLine.pad,
       ocr_method := "paddleocr" } : CoordOut).text_lines
      = ((extract_text_from_ocr_result
          [PaddleItem.dict ["z"] [some 1] []]).2.2).map TLine.pad :=
  (((C3_secondary_normalization [PaddleItem.dict ["z"] [some 1] []]).2.2.2.2)
    false (.error ()) _ rfl rfl).1

/-- C4: the coordinator fails exactly when the accumulated text is empty
after both stages — the primary failed and the secondary yielded zero
non-empty detections — with the both-engines-failed message as its only
error; in the handler no result row reaches the store on that path and the
request surfaces an error. -/
theorem C4_both_engines_failed (gc : Bool) (resp : Except Unit (Option String))
    (pr : List PaddleItem) :
    ((ocrCoordinator gc resp pr).1 = .error bothFailedMsg ↔
      specPrimaryFails gc resp = true ∧
        (allTexts pr).filter (fun t => t ≠ "") = []) ∧
    (∀ m, (ocrCoordinator gc resp pr).1 = .error m → m = bothFailedMsg) ∧
    (∀ (g : GlobalEnv) (f : FileReq),
      g.geminiConfigured = gc → f.geminiResp = resp → f.paddleResult = pr →
      (ocrCoordinator gc resp pr).1 = .error bothFailedMsg →
      (ocr_document g f).dbRows = [] ∧
        ∃ err, (ocr_document g f).result = .error err) := by
  have hmain : ∀ m, (ocrCoordinator gc resp pr).1 = .error m →
      m = bothFailedMsg ∧ specPrimaryFails gc resp = true ∧
        (extract_text_from_ocr_result pr).1 = "" := by
    intro m hm
    by_cases hfail : specPrimaryFails gc resp = true
    · rw [ocrCoordinator_fallback gc resp pr hfail] at hm
      unfold specSecondaryOutcome at hm
      by_cases he : (extract_text_from_ocr_result pr).1 = ""
      · rw [if_pos he] at hm
        exact ⟨(Except.error.inj hm).symm, hfail, he⟩
      · rw [if_neg he] at hm; cases hm
    · have hf : specPrimaryFails gc resp = false := by simpa using hfail
      rw [ocrCoordinator_primary gc resp pr hf] at hm
      cases hm
  refine ⟨⟨?_, ?_⟩, ?_, ?_⟩
  · intro hm
    obtain ⟨-, h2, h3⟩ := hmain bothFailedMsg hm
    exact ⟨h2, (extract_text_empty_iff pr).mp h3⟩
  · rintro ⟨hfail, hempty⟩
    rw [ocrCoordinator_fallback gc resp pr hfail]
    unfold specSecondaryOutcome
    rw [if_pos ((extract_text_empty_iff pr).mpr hempty)]
  · intro m hm; exact (hmain m hm).1
  · intro g f hgc hresp hpr herr
    unfold ocr_document
    by_cases hext : (pyLower (splitextExt f.filename)) ∉ allowedExtensions
    · rw [if_pos hext]
      exact ⟨rfl, ⟨_, rfl⟩⟩
    · rw [if_neg hext, hgc, hresp, hpr]
      simp only [herr]
      exact ⟨trivial, ⟨_, rfl⟩⟩

/-- C4 witness: primary raising and secondary yielding only empty detections
leaves no database row and an error result. -/
theorem C4_both_engines_failed_witness :
    (ocr_document { geminiConfigured := true, supabaseConfigured := true }
        { filename := "a.png", geminiResp := .error (),
          paddleResult := [PaddleItem.dict ["", ""] [] []],
          dbOutcome := .ok true }).dbRows = [] ∧
    ∃ err, (ocr_document { geminiConfigured := true, supabaseConfigured := true }
        { filename := "a.png", geminiResp := .error (),
          paddleResult := [PaddleItem.dict ["", ""] [] []],
          dbOutcome := .ok true }).result = .error err :=
  (C4_both_engines_failed true (.error ()) [PaddleItem.dict ["", ""] [] []]).2.2
    { geminiConfigured := true, supabaseConfigured := true }
    { filename := "a.png", geminiResp := .error (),
      paddleResult := [PaddleItem.dict ["", ""] [] []], dbOutcome := .ok true }
    rfl rfl rfl rfl

/-- C5: the numeric-conversion function is idempotent, and its output is free
of numpy-wrapped types for arbitrarily nested dicts and lists of fixed-width
integers, floats, booleans, numeric arrays and scalar-shaped array-likes. -/
theorem C5_conversion_idempotent_and_plain (v : Value) :
    convert_to_json_serializable (convert_to_json_serializable v)
      = convert_to_json_serializable v ∧
    (convert_to_json_serializable v).isPlain = true :=
  ⟨convert_idem v, convert_isPlain v⟩

/-- C9: the secondary-result parser is total on malformed input: non-dict
entries contribute nothing (parsing equals parsing the dict entries alone),
every non-empty text yields a line even when the score or polygon lists are
shorter — the missing field is then `none` — and the confidence accumulation
is exactly the present per-line confidences. -/
theorem C9_parser_totality (items : List PaddleItem) (ts : List String)
    (ss : List (Option ℚ)) (ps : List Value) :
    extract_text_from_ocr_result items
      = extract_text_from_ocr_result (items.filter PaddleItem.isDict) ∧
    (extract_text_from_ocr_result [PaddleItem.dict ts ss ps]).2.2
      = (List.enumFrom 0 ts).filterMap (fun p =>
          if p.2 = "" then none
          else some { text := p.2, confidence := ss.getD p.1 none,
                      polygon := (ps[p.1]?.map convert_to_json_serializable).map
                        convert_to_json_serializable }) ∧
    (extract_text_from_ocr_result [PaddleItem.dict ts ss ps]).2.1
      = ((extract_text_from_ocr_result [PaddleItem.dict ts ss ps]).2.2).filterMap
          PLine.confidence := by
  refine ⟨extract_eq_filter_dict items, ?_, extract_confs_filterMap _⟩
  show (processTexts ss ps 0 ts).2.2 ++ (extract_text_from_ocr_result []).2.2 = _
  simp [extract_text_from_ocr_result, processTexts_lines ss ps ts 0]

theorem count_callEventsOf_createTemp (j : Nat) (calls : List EngineCall)
    (k : Nat) : (callEventsOf j calls).count (Event.createTemp k) = 0 := by
  rw [List.count_eq_zero]
  intro hmem
  rcases List.mem_map.mp hmem with ⟨c, -, hc⟩
  cases c <;> cases hc

theorem count_callEventsOf_deleteTemp (j : Nat) (calls : List EngineCall)
    (k : Nat) : (callEventsOf j calls).count (Event.deleteTemp k) = 0 := by
  rw [List.count_eq_zero]
  intro hmem
  rcases List.mem_map.mp hmem with ⟨c, -, hc⟩
  cases c <;> cases hc

theorem processFile_count_temp (g : GlobalEnv) (j : Nat) (f : FileReq)
    (k : Nat) :
    ((processFile g j f).2.2.1).count (Event.createTemp k)
      = ((processFile g j f).2.2.1).count (Event.deleteTemp k) := by
  unfold processFile
  by_cases hbad : pyLower (splitextExt f.filename) ∉ allowedExtensions
  · rw [if_pos hbad]; rfl
  · rw [if_neg hbad]
    cases hrun : (ocrCoordinator g.geminiConfigured f.geminiResp f.paddleResult).1 with
    | error msg =>
        simp [hrun, List.count_append, List.count_cons,
          count_callEventsOf_createTemp, count_callEventsOf_deleteTemp]
    | ok out =>
        cases hs : g.supabaseConfigured with
        | false =>
            simp [hrun, hs, List.count_append, List.count_cons,
              count_callEventsOf_createTemp, count_callEventsOf_deleteTemp]
        | true =>
            cases hdb : f.dbOutcome with
            | error e =>
                simp [hrun, hs, hdb, List.count_append, List.count_cons,
                  count_callEventsOf_createTemp, count_callEventsOf_deleteTemp]
            | ok b =>
                cases b <;>
                  simp [hrun, hs, hdb, List.count_append, List.count_cons,
                    count_callEventsOf_createTemp, count_callEventsOf_deleteTemp]

theorem ocr_document_events_eq_processFile (g : GlobalEnv) (f : FileReq) :
    (ocr_document g f).events = (processFile g 0 f).2.2.1 := by
  unfold ocr_document processFile
  by_cases hbad : pyLower (splitextExt f.filename) ∉ allowedExtensions
  · rw [if_pos hbad, if_pos hbad]
  · rw [if_neg hbad, if_neg hbad]
    cases hrun : (ocrCoordinator g.geminiConfigured f.geminiResp f.paddleResult).1 with
    | error msg => simp [hrun]
    | ok out =>
        cases hs : g.supabaseConfigured with
        | false => simp [hrun, hs]
        | true =>
            cases hdb : f.dbOutcome with
            | error e => simp [hrun, hs, hdb]
            | ok b => cases b <;> simp [hrun, hs, hdb]

theorem ocr_document_dbRows_eq_processFile (g : GlobalEnv) (f : FileReq) :
    (ocr_document g f).dbRows = (processFile g 0 f).2.2.2 := by
  unfold ocr_document processFile
  by_cases hbad : pyLower (splitextExt f.filename) ∉ allowedExtensions
  · rw [if_pos hbad, if_pos hbad]
  · rw [if_neg hbad, if_neg hbad]
    cases hrun : (ocrCoordinator g.geminiConfigured f.geminiResp f.paddleResult).1 with
    | error msg => simp [hrun]
    | ok out =>
        cases hs : g.supabaseConfigured with
        | false => simp [hrun, hs]
        | true =>
            cases hdb : f.dbOutcome with
            | error e => simp [hrun, hs, hdb]
            | ok b => cases b <;> simp [hrun, hs, hdb]

theorem batchAux_count_temp (g : GlobalEnv) (files : List FileReq) (k : Nat) :
    ∀ i : Nat, ((batchAux g i files).2.2.1).count (Event.createTemp k)
      = ((batchAux g i files).2.2.1).count (Event.deleteTemp k) := by
  induction files with
  | nil => intro i; rfl
  | cons f fs ih =>
      intro i
      simp only [batchAux, List.count_append]
      rw [processFile_count_temp g i f k, ih (i + 1)]

theorem processFile_rows_stripped (g : GlobalEnv) (j : Nat) (f : FileReq) :
    (∀ row ∈ (processFile g j f).2.2.2,
        pyStrip row.extracted_text = row.extracted_text) ∧
    (∀ d ∈ (processFile g j f).1.toList,
        pyStrip d.extracted_text = d.extracted_text) := by
  unfold processFile
  by_cases hbad : pyLower (splitextExt f.filename) ∉ allowedExtensions
  · rw [if_pos hbad]
    exact ⟨fun row h => absurd h (List.not_mem_nil row),
           fun d h => absurd h (List.not_mem_nil d)⟩
  · rw [if_neg hbad]
    cases hrun : (ocrCoordinator g.geminiConfigured f.geminiResp f.paddleResult).1 with
    | error msg =>
        simp only [hrun]
        exact ⟨fun row h => absurd h (List.not_mem_nil row),
               fun d h => absurd h (List.not_mem_nil d)⟩
    | ok out =>
        cases hs : g.supabaseConfigured with
        | false =>
            simp only [hrun, hs, Bool.false_eq_true, if_false]
            refine ⟨fun row h => absurd h (List.not_mem_nil row), fun d hd => ?_⟩
            rw [List.mem_singleton.mp hd]
            exact pyStrip_idem out.extracted_text
        | true =>
            cases hdb : f.dbOutcome with
            | error e =>
                simp only [hrun, hs, hdb, if_true]
                refine ⟨fun row hrow => ?_, fun d h => absurd h (List.not_mem_nil d)⟩
                rw [List.mem_singleton.mp hrow]
                exact pyStrip_idem out.extracted_text
            | ok b =>
                cases b with
                | false =>
                    simp only [hrun, hs, hdb, if_true]
                    refine ⟨fun row hrow => ?_,
                            fun d h => absurd h (List.not_mem_nil d)⟩
                    rw [List.mem_singleton.mp hrow]
                    exact pyStrip_idem out.extracted_text
                | true =>
                    simp only [hrun, hs, hdb, if_true]
                    refine ⟨fun row hrow => ?_, fun d hd => ?_⟩
                    · rw [List.mem_singleton.mp hrow]
                      exact pyStrip_idem out.extracted_text
                    · rw [List.mem_singleton.mp hd]
                      exact pyStrip_idem out.extracted_text

theorem batchAux_rows_stripped (g : GlobalEnv) (files : List FileReq) :
    ∀ i : Nat,
    (∀ row ∈ (batchAux g i files).2.2.2,
        pyStrip row.extracted_text = row.extracted_text) ∧
    (∀ d ∈ (batchAux g i files).1,
        pyStrip d.extracted_text = d.extracted_text) := by
  induction files with
  | nil =>
      intro i
      exact ⟨fun row h => absurd h (List.not_mem_nil row),
             fun d h => absurd h (List.not_mem_nil d)⟩
  | cons f fs ih =>
      intro i
      simp only [batchAux]
      constructor
      · intro row hrow
        rcases List.mem_append.mp hrow with h | h
        · exact (processFile_rows_stripped g i f).1 row h
        · exact (ih (i + 1)).1 row h
      · intro d hd
        rcases List.mem_append.mp hd with h | h
        · exact (processFile_rows_stripped g i f).2 d h
        · exact (ih (i + 1)).2 d h

theorem processFile_one_outcome (g : GlobalEnv) (j : Nat) (f : FileReq) :
    (processFile g j f).1.toList.length + (processFile g j f).2.1.length = 1 := by
  unfold processFile
  by_cases hbad : pyLower (splitextExt f.filename) ∉ allowedExtensions
  · rw [if_pos hbad]; rfl
  · rw [if_neg hbad]
    cases hrun : (ocrCoordinator g.geminiConfigured f.geminiResp f.paddleResult).1 with
    | error msg => simp [hrun]
    | ok out =>
        cases hs : g.supabaseConfigured with
        | false => simp [hrun, hs]
        | true =>
            cases hdb : f.dbOutcome with
            | error e => simp [hrun, hs, hdb]
            | ok b => cases b <;> simp [hrun, hs, hdb]

theorem processFile_error_filename (g : GlobalEnv) (j : Nat) (f : FileReq) :
    ∀ e ∈ (processFile g j f).2.1, e.filename = f.filename := by
  unfold processFile
  by_cases hbad : pyLower (splitextExt f.filename) ∉ allowedExtensions
  · rw [if_pos hbad]
    intro e he
    rw [List.mem_singleton.mp he]
  · rw [if_neg hbad]
    cases hrun : (ocrCoordinator g.geminiConfigured f.geminiResp f.paddleResult).1 with
    | error msg =>
        simp only [hrun]
        intro e he
        rw [List.mem_singleton.mp he]
    | ok out =>
        cases hs : g.supabaseConfigured with
        | false =>
            simp only [hrun, hs, Bool.false_eq_true, if_false]
            intro e he
            exact absurd he (List.not_mem_nil e)
        | true =>
            cases hdb : f.dbOutcome with
            | error err =>
                simp only [hrun, hs, hdb, if_true]
                intro e he
                rw [List.mem_singleton.mp he]
            | ok b =>
                cases b with
                | false =>
                    simp only [hrun, hs, hdb, if_true]
                    intro e he
                    rw [List.mem_singleton.mp he]
                | true =>
                    simp only [hrun, hs, hdb, if_true]
                    intro e he
                    exact absurd he (List.not_mem_nil e)

theorem batchAux_counts (g : GlobalEnv) (files : List FileReq) :
    ∀ i : Nat,
    (batchAux g i files).1.length + (batchAux g i files).2.1.length
      = files.length := by
  induction files with
  | nil => intro i; rfl
  | cons f fs ih =>
      intro i
      simp only [batchAux, List.length_append, List.length_cons]
      have h1 := processFile_one_outcome g i f
      have h2 := ih (i + 1)
      omega

theorem batchAux_error_filename (g : GlobalEnv) (files : List FileReq) :
    ∀ i : Nat, ∀ e ∈ (batchAux g i files).2.1,
      e.filename ∈ files.map FileReq.filename := by
  induction files with
  | nil => intro i e he; exact absurd he (List.not_mem_nil e)
  | cons f fs ih =>
      intro i e he
      simp only [batchAux] at he
      rcases List.mem_append.mp he with h | h
      · rw [List.map_cons]
        exact List.mem_cons.mpr (Or.inl (processFile_error_filename g i f e h))
      · rw [List.map_cons]
        exact List.mem_cons.mpr (Or.inr (ih (i + 1) e h))

theorem batchAux_append (g : GlobalEnv) (fs₁ fs₂ : List FileReq) :
    ∀ i : Nat, batchAux g i (fs₁ ++ fs₂)
      = ((batchAux g i fs₁).1 ++ (batchAux g (i + fs₁.length) fs₂).1,
         (batchAux g i fs₁).2.1 ++ (batchAux g (i + fs₁.length) fs₂).2.1,
         (batchAux g i fs₁).2.2.1 ++ (batchAux g (i + fs₁.length) fs₂).2.2.1,
         (batchAux g i fs₁).2.2.2 ++ (batchAux g (i + fs₁.length) fs₂).2.2.2) := by
  induction fs₁ with
  | nil => intro i; simp [batchAux]
  | cons f fs ih =>
      intro i
      have hidx : i + (f :: fs).length = (i + 1) + fs.length := by
        simp [List.length_cons]; omega
      simp only [List.cons_append, batchAux, List.append_eq, ih (i + 1), hidx,
        List.append_assoc]

/-- C6: an upload whose lowercased extension is outside the allow-list is
rejected by both OCR handlers with the unsupported-type error before any file
read, temp file or engine call (the trace is empty and no row is submitted);
an upload with an allowed extension proceeds to processing (the trace begins
with the file read and the temp-file creation). -/
theorem C6_extension_gate (g : GlobalEnv) (f : FileReq) (i : Nat) :
    (pyLower (splitextExt f.filename) ∉ allowedExtensions →
      ocr_document g f
        = { result :=
              .error (.unsupportedType
                (unsupportedMsg (pyLower (splitextExt f.filename)))),
            events := [],
            dbRows := [] } ∧
      processFile g i f
        = (none,
           [{ filename := f.filename,
              error := unsupportedMsg (pyLower (splitextExt f.filename)) }],
           [], [])) ∧
    (pyLower (splitextExt f.filename) ∈ allowedExtensions →
      (∃ rest, (ocr_document g f).events
          = Event.readFile 0 :: Event.createTemp 0 :: rest) ∧
      (∃ rest, (processFile g i f).2.2.1
          = Event.readFile i :: Event.createTemp i :: rest)) := by
  constructor
  · intro hbad
    constructor
    · unfold ocr_document; rw [if_pos hbad]
    · unfold processFile; rw [if_pos hbad]
  · intro hgood
    have hn : ¬ (pyLower (splitextExt f.filename) ∉ allowedExtensions) := by
      simpa using hgood
    have hshape : ∀ j : Nat, ∃ rest, (processFile g j f).2.2.1
        = Event.readFile j :: Event.createTemp j :: rest := by
      intro j
      unfold processFile
      rw [if_neg hn]
      cases hrun : (ocrCoordinator g.geminiConfigured f.geminiResp
          f.paddleResult).1 with
      | error msg => simp only [hrun]; exact ⟨_, rfl⟩
      | ok out =>
          cases hs : g.supabaseConfigured with
          | false => simp only [hrun, hs]; exact ⟨_, rfl⟩
          | true =>
              cases hdb : f.dbOutcome with
              | error e => simp only [hrun, hs, hdb]; exact ⟨_, rfl⟩
              | ok b =>
                  cases b <;> (simp only [hrun, hs, hdb]; exact ⟨_, rfl⟩)
    refine ⟨?_, hshape i⟩
    rw [ocr_document_events_eq_processFile]
    exact hshape 0

/-- C6 witness: a `.txt` upload is rejected with an empty trace; a `.png`
upload proceeds to the read and temp-file creation. -/
theorem C6_extension_gate_witness :
    ocr_document { geminiConfigured := false, supabaseConfigured := false }
        { filename := "doc.txt", geminiResp := .error (),
          paddleResult := [], dbOutcome := .ok true }
      = { result := .error (.unsupportedType (unsupportedMsg ".txt")),
          events := [], dbRows := [] } ∧
    ∃ rest, (ocr_document { geminiConfigured := false, supabaseConfigured := false }
        { filename := "doc.png", geminiResp := .error (),
          paddleResult := [PaddleItem.dict ["z"] [] []],
          dbOutcome := .ok true }).events
      = Event.readFile 0 :: Event.createTemp 0 :: rest :=
  ⟨((C6_extension_gate { geminiConfigured := false, supabaseConfigured := false }
      { filename := "doc.txt", geminiResp := .error (),
        paddleResult := [], dbOutcome := .ok true } 0).1 (by decide)).1,
   ((C6_extension_gate { geminiConfigured := false, supabaseConfigured := false }
      { filename := "doc.png", geminiResp := .error (),
        paddleResult := [PaddleItem.dict ["z"] [] []],
        dbOutcome := .ok true } 0).2 (by decide)).1⟩

/-- C7: the batch handler processes the files sequentially and independently:
the summary counts the documents and error entries, one outcome per file
(successful + failed = total), every error entry names the filename of one of
the uploaded files, and the outcome of a batch splits as the concatenation of
the outcomes of any prefix and the corresponding suffix (a failure in one
file cannot affect the others). -/
theorem C7_batch_isolation (g : GlobalEnv) (files : List FileReq) :
    (upload_documents g files).total_files = files.length ∧
    (upload_documents g files).successful
      = (upload_documents g files).documents.length ∧
    (upload_documents g files).failed
      = (upload_documents g files).errors.length ∧
    (upload_documents g files).successful + (upload_documents g files).failed
      = files.length ∧
    (∀ e ∈ (upload_documents g files).errors,
      e.filename ∈ files.map FileReq.filename) ∧
    (∀ fs₁ fs₂, files = fs₁ ++ fs₂ →
      (upload_documents g files).documents
        = (batchAux g 1 fs₁).1 ++ (batchAux g (1 + fs₁.length) fs₂).1 ∧
      (upload_documents g files).errors
        = (batchAux g 1 fs₁).2.1 ++ (batchAux g (1 + fs₁.length) fs₂).2.1) := by
  refine ⟨rfl, rfl, rfl, ?_, ?_, ?_⟩
  · exact batchAux_counts g files 1
  · exact batchAux_error_filename g files 1
  · intro fs₁ fs₂ hsplit
    subst hsplit
    rw [show (upload_documents g (fs₁ ++ fs₂)).documents
        = (batchAux g 1 (fs₁ ++ fs₂)).1 from rfl,
      show (upload_documents g (fs₁ ++ fs₂)).errors
        = (batchAux g 1 (fs₁ ++ fs₂)).2.1 from rfl,
      batchAux_append g fs₁ fs₂ 1]
    exact ⟨rfl, rfl⟩

/-- C7 witness: the spec test — three files where the second has an
unsupported extension — applied to the error-naming conjunct: the single
error entry names the second file. -/
theorem C7_batch_isolation_witness :
    ({ filename := "b.txt", error := unsupportedMsg ".txt" } : ErrorEntry).filename
      ∈ ([{ filename := "a.png", geminiResp := .ok (some "ha"),
            paddleResult := [], dbOutcome := .ok true },
          { filename := "b.txt", geminiResp := .ok (some "hb"),
            paddleResult := [], dbOutcome := .ok true },
          { filename := "c.png", geminiResp := .ok (some "hc"),
            paddleResult := [], dbOutcome := .ok true }] : List FileReq).map
          FileReq.filename :=
  (C7_batch_isolation
      { geminiConfigured := true, supabaseConfigured := false }
      [{ filename := "a.png", geminiResp := .ok (some "ha"),
         paddleResult := [], dbOutcome := .ok true },
       { filename := "b.txt", geminiResp := .ok (some "hb"),
         paddleResult := [], dbOutcome := .ok true },
       { filename := "c.png", geminiResp := .ok (some "hc"),
         paddleResult := [], dbOutcome := .ok true }]).2.2.2.2.1
    { filename := "b.txt", error := unsupportedMsg ".txt" }
    (by decide)

/-- C8: for every request environment, each temp-file creation in the trace
of either OCR handler is matched by a deletion before the handler exits: the
number of `createTemp i` events equals the number of `deleteTemp i` events on
every path — success, extraction failure and database failure alike. -/
theorem C8_temp_file_cleanup (g : GlobalEnv) (f : FileReq)
    (files : List FileReq) (i : Nat) :
    (ocr_document g f).events.count (Event.createTemp i)
      = (ocr_document g f).events.count (Event.deleteTemp i) ∧
    (upload_documents g files).events.count (Event.createTemp i)
      = (upload_documents g files).events.count (Event.deleteTemp i) := by
  constructor
  · rw [ocr_document_events_eq_processFile]
    exact processFile_count_temp g 0 f i
  · exact batchAux_count_temp g files i 1

/-- C10: the extracted text of every row submitted to the store and of every
successful response — on both the single and the batch handler — carries no
leading or trailing whitespace: stripping it again changes nothing. -/
theorem C10_stripped_text (g : GlobalEnv) (f : FileReq)
    (files : List FileReq) :
    (∀ row ∈ (ocr_document g f).dbRows,
        pyStrip row.extracted_text = row.extracted_text) ∧
    (∀ r, (ocr_document g f).result = .ok r →
        pyStrip r.extracted_text = r.extracted_text) ∧
    (∀ row ∈ (upload_documents g files).dbRows,
        pyStrip row.extracted_text = row.extracted_text) ∧
    (∀ d ∈ (upload_documents g files).documents,
        pyStrip d.extracted_text = d.extracted_text) := by
  refine ⟨?_, ?_, ?_, ?_⟩
  · rw [ocr_document_dbRows_eq_processFile]
    exact fun row h => (processFile_rows_stripped g 0 f).1 row h
  · intro r hr
    unfold ocr_document at hr
    by_cases hbad : pyLower (splitextExt f.filename) ∉ allowedExtensions
    · rw [if_pos hbad] at hr; cases hr
    · rw [if_neg hbad] at hr
      cases hrun : (ocrCoordinator g.geminiConfigured f.geminiResp
          f.paddleResult).1 with
      | error msg => simp only [hrun] at hr; cases hr
      | ok out =>
          cases hs : g.supabaseConfigured with
          | false =>
              simp only [hrun, hs, Bool.false_eq_true, if_false] at hr
              have hres := (Except.ok.inj hr).symm
              rw [hres]
              exact pyStrip_idem out.extracted_text
          | true =>
              cases hdb : f.dbOutcome with
              | error e => simp only [hrun, hs, hdb, if_true] at hr; cases hr
              | ok b =>
                  cases b with
                  | false =>
                      simp only [hrun, hs, hdb, if_true] at hr; cases hr
                  | true =>
                      simp only [hrun, hs, hdb, if_true] at hr
                      have hres := (Except.ok.inj hr).symm
                      rw [hres]
                      exact pyStrip_idem out.extracted_text
  · exact fun row h => (batchAux_rows_stripped g files 1).1 row h
  · exact fun d h => (batchAux_rows_stripped g files 1).2 d h

/-- C10 witness: a successful single-document run whose Gemini text has
surrounding whitespace yields an already-stripped response text. -/
theorem C10_stripped_text_witness :
    pyStrip (mkResult "a.png" (specPrimaryOutcome true
        (.ok (some "  hi  ")))).extracted_text
      = (mkResult "a.png" (specPrimaryOutcome true
        (.ok (some "  hi  ")))).extracted_text :=
  (C10_stripped_text { geminiConfigured := true, supabaseConfigured := false }
      { filename := "a.png", geminiResp := .ok (some "  hi  "),
        paddleResult := [], dbOutcome := .ok true } []).2.1
    (mkResult "a.png" (specPrimaryOutcome true (.ok (some "  hi  ")))) rfl

end OcrService
